import Mathlib

/-!
Verification of the Clock-Sync simulation engine (src/app.py).

The engine is embedded shallowly: Python objects become Lean structures,
in-place mutation becomes functional update, real numbers become ℚ, and a
Python run that raises an uncaught exception becomes an `Except.error`
carrying the exception's class.
-/

namespace ClockSync

/-- Exception classes that the Python code can raise on the modelled paths,
plus the `InvalidInput` error class that the specification postulates
(no such class exists in the source). -/
inductive PyError where
  | zeroDivisionError
  | statisticsError
  | valueError
  | indexError
  | invalidInput
deriving DecidableEq

/-- Constant `NUM_NODES = 5` (src/app.py line 7). -/
def NUM_NODES : Nat := 5

/-- Constant `BASE_TIME = 1000.0` (src/app.py line 8). -/
def BASE_TIME : ℚ := 1000

/-- One simulated clock (class `Node`, src/app.py lines 10-22).
Its `__init__` stores `node_id`, `drift`, `is_byzantine` and sets
`offset = 0.0`; manual mode overwrites `offset` right after construction. -/
structure Node where
  node_id : Nat
  drift : ℚ
  is_byzantine : Bool
  offset : ℚ
deriving DecidableEq

/-- Method `Node.get_time` (src/app.py lines 17-19):
`t = base_time * self.drift + self.offset; return t + 30.0 if self.is_byzantine else t`. -/
def Node.get_time (n : Node) (base_time : ℚ) : ℚ :=
  let t := base_time * n.drift + n.offset
  if n.is_byzantine then t + 30 else t

/-- State-passing view of the method call `n.get_time(base_time)`: the body
assigns only the local `t` and no field of `self`, so the post-state is `n`
unchanged. -/
def Node.get_time_st (n : Node) (base_time : ℚ) : ℚ × Node :=
  (n.get_time base_time, n)

/-- Method `Node.adjust` (src/app.py lines 21-22): `self.offset += offset`. -/
def Node.adjust (n : Node) (offset : ℚ) : Node :=
  { n with offset := n.offset + offset }

/-- Python `statistics.median`: sort the data; for odd length return the middle
element, for even length the average of the two central elements. -/
def median (xs : List ℚ) : ℚ :=
  let s := List.insertionSort (fun a b => a ≤ b) xs
  let n := xs.length
  if n % 2 = 1 then s.getD (n / 2) 0
  else (s.getD (n / 2 - 1) 0 + s.getD (n / 2) 0) / 2

/-- Function `berkeley_sync` (src/app.py lines 25-29): snapshot `readings`,
compute `central` (median when `use_median` else `sum/len`), then
`node.adjust(central - r)` for each node zipped with its captured reading.
On an empty node list Python raises `ZeroDivisionError` from `sum/len`
(mean mode) or `statistics.StatisticsError` from `median` (robust mode);
both are modelled as `Except.error`. -/
def berkeley_sync (nodes : List Node) (use_median : Bool) : Except PyError (List Node) :=
  let readings := nodes.map (fun n => n.get_time BASE_TIME)
  if nodes.length = 0 then
    Except.error (if use_median then PyError.statisticsError else PyError.zeroDivisionError)
  else
    let central := if use_median then median readings else readings.sum / (readings.length : ℚ)
    Except.ok ((nodes.zip readings).map (fun p => p.1.adjust (central - p.2)))

/-- Function `cristian_sync` (src/app.py lines 31-36): per client, read the
server, add another 30.0 when the server is Byzantine, then
`client.adjust(server_time - client.get_time())`. The server is only read,
never adjusted, and each client is adjusted exactly once, so the sequential
loop is a map. -/
def cristian_sync (clients : List Node) (server : Node) : List Node :=
  clients.map (fun client =>
    let server_time := server.get_time BASE_TIME
    let server_time := if server.is_byzantine then server_time + 30 else server_time
    client.adjust (server_time - client.get_time BASE_TIME))

/-- Sidebar fault selection (src/app.py lines 49, 67, 86, 91). -/
inductive FaultType where
  | fnone
  | fbyzantine
  | fcrash
deriving DecidableEq

/-- Sidebar algorithm selection (src/app.py lines 48, 85). -/
inductive Algorithm where
  | berkeley
  | cristian
deriving DecidableEq

/-- Manual-mode node construction (src/app.py lines 67, 70-73):
`Node(i, drift=1.0, is_byzantine=(i == byzantine_id))` with
`byzantine_id = 0` when the Byzantine fault is selected, then
`node.offset = manual_times[i] - BASE_TIME`. -/
def mkManualNode (fault_type : FaultType) (i : Nat) (t : ℚ) : Node :=
  { node_id := i
    drift := 1
    is_byzantine := decide (fault_type = FaultType.fbyzantine ∧ i = 0)
    offset := t - BASE_TIME }

/-- Random-drift node construction (src/app.py lines 76-77) with the drawn
drift passed in explicitly (the RNG draw is an input of the model). -/
def mkDriftNode (fault_type : FaultType) (i : Nat) (drift : ℚ) : Node :=
  { node_id := i
    drift := drift
    is_byzantine := decide (fault_type = FaultType.fbyzantine ∧ i = 0)
    offset := 0 }

/-- The loop `for i in range(NUM_NODES)` building manual-mode nodes
(src/app.py lines 69-78), generalised to any list of manual times. -/
def buildManualNodes (fault_type : FaultType) (manual_times : List ℚ) : List Node :=
  ((List.range manual_times.length).zip manual_times).map
    (fun p => mkManualNode fault_type p.1 p.2)

/-- Python `max` over a list; the simulation only applies it to non-empty
lists (`max([])` would raise `ValueError`, modelled in the runner). -/
def listMax : List ℚ → ℚ
  | [] => 0
  | x :: xs => xs.foldl max x

/-- Python `min` over a list, as `listMax`. -/
def listMin : List ℚ → ℚ
  | [] => 0
  | x :: xs => xs.foldl min x

/-- Constant `SYNC_THRESHOLD = 0.1` (src/app.py line 101). -/
def SYNC_THRESHOLD : ℚ := 1/10

/-- The measurements of one simulation run (src/app.py lines 81-102),
together with the final node states. -/
structure SimulationResult where
  before_times : List ℚ
  after_times : List ℚ
  skew_before : ℚ
  skew_after : ℚ
  synchronized : Bool
  final_nodes : List Node
deriving DecidableEq

/-- Algorithm dispatch (src/app.py lines 85-93): Berkeley runs on
`nodes[1:]` under a crash fault and on all nodes otherwise; Cristian uses
`server = nodes[0]` and clients `nodes[1:]` (`nodes[2:]` under a crash
fault). Nodes outside the active set keep their state. `nodes[0]` of an
empty list raises `IndexError`. -/
def applyAlgorithm (nodes : List Node) (algorithm : Algorithm) (fault_type : FaultType)
    (use_robust : Bool) : Except PyError (List Node) :=
  match algorithm with
  | Algorithm.berkeley =>
    let active_nodes := if fault_type = FaultType.fcrash then nodes.drop 1 else nodes
    match berkeley_sync active_nodes use_robust with
    | Except.error e => Except.error e
    | Except.ok synced =>
        Except.ok (if fault_type = FaultType.fcrash then nodes.take 1 ++ synced else synced)
  | Algorithm.cristian =>
    match nodes with
    | [] => Except.error PyError.indexError
    | server :: rest =>
      if fault_type = FaultType.fcrash then
        Except.ok ((server :: rest).take 2 ++ cristian_sync ((server :: rest).drop 2) server)
      else
        Except.ok (server :: cristian_sync rest server)

/-- The `Run Simulation` block (src/app.py lines 65-102): read every node
before, run the chosen algorithm, read every node after, compute both skews
as `max - min`, and set `synchronized` iff `skew_after < SYNC_THRESHOLD`.
`max([])` on an empty node list would raise `ValueError`. -/
def runSimulation (nodes : List Node) (algorithm : Algorithm) (fault_type : FaultType)
    (use_robust : Bool) : Except PyError SimulationResult :=
  match nodes with
  | [] => Except.error PyError.valueError
  | _ :: _ =>
    let before_times := nodes.map (fun n => n.get_time BASE_TIME)
    let skew_before := listMax before_times - listMin before_times
    match applyAlgorithm nodes algorithm fault_type use_robust with
    | Except.error e => Except.error e
    | Except.ok final_nodes =>
      let after_times := final_nodes.map (fun n => n.get_time BASE_TIME)
      let skew_after := listMax after_times - listMin after_times
      Except.ok
        { before_times := before_times
          after_times := after_times
          skew_before := skew_before
          skew_after := skew_after
          synchronized := decide (skew_after < SYNC_THRESHOLD)
          final_nodes := final_nodes }

/-- The central value Berkeley computes from the snapshot of readings. -/
def bcentral (nodes : List Node) (use_median : Bool) : ℚ :=
  let readings := nodes.map (fun n => n.get_time BASE_TIME)
  if use_median then median readings else readings.sum / (readings.length : ℚ)

/-- Adjusting by a delta shifts the reported time by exactly that delta;
the Byzantine bias inside the reading cancels. -/
lemma Node.adjust_get_time (n : Node) (d b : ℚ) :
    (n.adjust d).get_time b = n.get_time b + d := by
  simp only [Node.adjust, Node.get_time]
  cases h : n.is_byzantine <;> simp <;> ring

/-- On a non-empty node list, Berkeley returns each node adjusted by
its central-minus-reading delta, computed from the snapshot. -/
lemma berkeley_sync_of_ne_nil (nodes : List Node) (u : Bool) (h : nodes ≠ []) :
    berkeley_sync nodes u =
      Except.ok (nodes.map (fun n => n.adjust (bcentral nodes u - n.get_time BASE_TIME))) := by
  have hlen : ¬ nodes.length = 0 := by simpa [List.length_eq_zero] using h
  have hz : nodes.zip (nodes.map (fun n => n.get_time BASE_TIME)) =
      nodes.map (fun n => (n, n.get_time BASE_TIME)) := by
    simpa using List.zip_map' (id : Node → Node) (fun n => n.get_time BASE_TIME) nodes
  simp [berkeley_sync, bcentral, hlen, hz, List.map_map, Function.comp]

/-- A successful Berkeley run implies the input list was non-empty. -/
lemma berkeley_sync_ok_len_ne_zero {nodes synced : List Node} {u : Bool}
    (h : berkeley_sync nodes u = Except.ok synced) : nodes.length ≠ 0 := by
  intro hn
  simp [berkeley_sync, hn] at h

/-- Berkeley preserves the number of nodes. -/
lemma berkeley_sync_length {nodes synced : List Node} {u : Bool}
    (h : berkeley_sync nodes u = Except.ok synced) : synced.length = nodes.length := by
  have hn := berkeley_sync_ok_len_ne_zero h
  rw [berkeley_sync_of_ne_nil nodes u (by simpa [← List.length_eq_zero] using hn)] at h
  have h2 := Except.ok.inj h
  rw [← h2, List.length_map]

/-- Cristian preserves the number of clients. -/
lemma cristian_sync_length (clients : List Node) (server : Node) :
    (cristian_sync clients server).length = clients.length := by
  simp [cristian_sync]

/-- A successful dispatch returns as many nodes as it was given. -/
lemma applyAlgorithm_length {nodes fn : List Node} {alg : Algorithm} {ft : FaultType} {u : Bool}
    (h : applyAlgorithm nodes alg ft u = Except.ok fn) : fn.length = nodes.length := by
  cases alg with
  | berkeley =>
    by_cases hc : ft = FaultType.fcrash
    · subst hc
      simp only [applyAlgorithm, if_pos] at h
      cases hb : berkeley_sync (nodes.drop 1) u with
      | error e => rw [hb] at h; simp at h
      | ok synced =>
        rw [hb] at h
        simp only [] at h
        have h2 := Except.ok.inj h
        have hl := berkeley_sync_length hb
        have hn := berkeley_sync_ok_len_ne_zero hb
        rw [← h2, List.length_append, List.length_take, hl, List.length_drop]
        rw [List.length_drop] at hn
        omega
    · simp only [applyAlgorithm, if_neg hc] at h
      cases hb : berkeley_sync nodes u with
      | error e => rw [hb] at h; simp at h
      | ok synced =>
        rw [hb] at h
        simp only [] at h
        have h2 := Except.ok.inj h
        rw [← h2]
        exact berkeley_sync_length hb
  | cristian =>
    cases nodes with
    | nil => simp [applyAlgorithm] at h
    | cons s rest =>
      by_cases hc : ft = FaultType.fcrash
      · subst hc
        simp only [applyAlgorithm, if_pos] at h
        have h2 := Except.ok.inj h
        rw [← h2, List.length_append, List.length_take, cristian_sync_length, List.length_drop]
        simp; omega
      · simp only [applyAlgorithm, if_neg hc] at h
        have h2 := Except.ok.inj h
        rw [← h2, List.length_cons, cristian_sync_length, List.length_cons]

/-- A successful run packages the dispatch outcome into the result record. -/
lemma runSimulation_ok {nodes : List Node} {alg : Algorithm} {ft : FaultType} {ur : Bool}
    {res : SimulationResult} (h : runSimulation nodes alg ft ur = Except.ok res) :
    ∃ fn, applyAlgorithm nodes alg ft ur = Except.ok fn ∧
      res = { before_times := nodes.map (fun n => n.get_time BASE_TIME)
              after_times := fn.map (fun n => n.get_time BASE_TIME)
              skew_before := listMax (nodes.map (fun n => n.get_time BASE_TIME)) -
                listMin (nodes.map (fun n => n.get_time BASE_TIME))
              skew_after := listMax (fn.map (fun n => n.get_time BASE_TIME)) -
                listMin (fn.map (fun n => n.get_time BASE_TIME))
              synchronized := decide ((listMax (fn.map (fun n => n.get_time BASE_TIME)) -
                listMin (fn.map (fun n => n.get_time BASE_TIME))) < SYNC_THRESHOLD)
              final_nodes := fn } := by
  cases nodes with
  | nil => simp [runSimulation] at h
  | cons n0 rest =>
    simp only [runSimulation] at h
    cases ha : applyAlgorithm (n0 :: rest) alg ft ur with
    | error e => rw [ha] at h; simp at h
    | ok fn =>
      rw [ha] at h
      simp only [] at h
      exact ⟨fn, rfl, (Except.ok.inj h).symm⟩

/-- Under a crash fault, Berkeley leaves the excluded head node untouched. -/
lemma applyAlgorithm_berkeley_crash_head {nodes fn : List Node} {ur : Bool}
    (h : applyAlgorithm nodes Algorithm.berkeley FaultType.fcrash ur = Except.ok fn) :
    fn.take 1 = nodes.take 1 := by
  simp only [applyAlgorithm, if_pos] at h
  cases hb : berkeley_sync (nodes.drop 1) ur with
  | error e => rw [hb] at h; simp at h
  | ok synced =>
    rw [hb] at h
    simp only [] at h
    have h2 := Except.ok.inj h
    have hn := berkeley_sync_ok_len_ne_zero hb
    rw [List.length_drop] at hn
    cases nodes with
    | nil => simp at hn
    | cons n0 rest => rw [← h2]; rfl

/-- Cristian leaves the server (the head node) untouched. -/
lemma applyAlgorithm_cristian_head {nodes fn : List Node} {ft : FaultType} {ur : Bool}
    (h : applyAlgorithm nodes Algorithm.cristian ft ur = Except.ok fn) :
    fn.take 1 = nodes.take 1 := by
  cases nodes with
  | nil => simp [applyAlgorithm] at h
  | cons s rest =>
    by_cases hc : ft = FaultType.fcrash
    · subst hc
      simp only [applyAlgorithm, if_pos] at h
      have h2 := Except.ok.inj h
      rw [← h2]
      cases rest <;> rfl
    · simp only [applyAlgorithm, if_neg hc] at h
      have h2 := Except.ok.inj h
      rw [← h2]
      rfl

/-- Summing a constant minus each element gives length-times-constant minus
the sum. -/
lemma sum_map_sub_const (l : List ℚ) (c : ℚ) :
    (l.map (fun x => c - x)).sum = (l.length : ℚ) * c - l.sum := by
  induction l with
  | nil => simp
  | cons x xs ih =>
    simp only [List.map_cons, List.sum_cons, List.length_cons, ih]
    push_cast
    ring

/-- C1: on every non-empty active-node list, Berkeley takes one snapshot of
readings, uses the arithmetic mean of the snapshot as the central value when
`use_robust` is false and the statistical median (even length averaging the
two middle sorted values, per the `median` definition) when true, adjusts
each node by central minus its captured reading, and afterwards every node
in the returned list reports exactly the central value — in mean mode the
pre-sync arithmetic mean. -/
theorem C1_berkeley_convergence (nodes : List Node) (use_robust : Bool)
    (h : nodes ≠ []) :
    berkeley_sync nodes use_robust =
      Except.ok (nodes.map
        (fun n => n.adjust (bcentral nodes use_robust - n.get_time BASE_TIME))) ∧
    bcentral nodes false = (nodes.map (fun n => n.get_time BASE_TIME)).sum /
      ((nodes.map (fun n => n.get_time BASE_TIME)).length : ℚ) ∧
    bcentral nodes true = median (nodes.map (fun n => n.get_time BASE_TIME)) ∧
    ∀ m ∈ nodes.map (fun n => n.adjust (bcentral nodes use_robust - n.get_time BASE_TIME)),
      m.get_time BASE_TIME = bcentral nodes use_robust := by
  refine ⟨berkeley_sync_of_ne_nil nodes use_robust h, by simp [bcentral], by simp [bcentral], ?_⟩
  intro m hm
  obtain ⟨n, hn, rfl⟩ := List.mem_map.1 hm
  rw [Node.adjust_get_time]
  ring

/-- Concrete two-node instance for the C1 witness. -/
def pairC1 : List Node := [⟨0, 1, false, 2⟩, ⟨1, 1, false, 4⟩]

/-- C1 witness: instantiation at a concrete two-node list in mean mode;
the first synced node then reads the central value. -/
theorem C1_berkeley_convergence_witness :
    berkeley_sync pairC1 false =
      Except.ok (pairC1.map
        (fun n => n.adjust (bcentral pairC1 false - n.get_time BASE_TIME))) ∧
    (Node.mk 0 1 false 3).get_time BASE_TIME = bcentral pairC1 false := by
  have h := C1_berkeley_convergence pairC1 false (by decide)
  refine ⟨h.1, h.2.2.2 (Node.mk 0 1 false 3) ?_⟩
  norm_num [pairC1, bcentral, Node.get_time, Node.adjust, BASE_TIME, List.mem_map]

/-- C2: every client synced by Cristian afterwards reports exactly the
effective server time, namely the server's reported time plus another 30
when the server is Byzantine (the bias is applied a second time on top of
the already-biased read), independently of the client's own drift and
offset. -/
theorem C2_cristian_convergence (clients : List Node) (server : Node) :
    ∀ c ∈ cristian_sync clients server,
      c.get_time BASE_TIME =
        server.get_time BASE_TIME + (if server.is_byzantine then 30 else 0) := by
  intro c hc
  obtain ⟨cl, hcl, rfl⟩ := List.mem_map.1 (by simpa [cristian_sync] using hc)
  rw [Node.adjust_get_time]
  cases h : server.is_byzantine <;> simp [h]

/-- Concrete Byzantine server for the C2 witness. -/
def serverC2 : Node := ⟨0, 1, true, 0⟩

/-- Concrete client for the C2 witness. -/
def clientC2 : Node := ⟨1, 1, false, 7⟩

/-- C2 witness: the synced client of a concrete Byzantine server reads
the server's effective time (doubled bias: 1000 + 30 + 30 = 1060). -/
theorem C2_cristian_convergence_witness :
    (Node.mk 1 1 false 60).get_time BASE_TIME =
      serverC2.get_time BASE_TIME + (if serverC2.is_byzantine then 30 else 0) := by
  refine C2_cristian_convergence [clientC2] serverC2 (Node.mk 1 1 false 60) ?_
  norm_num [cristian_sync, clientC2, serverC2, Node.get_time, Node.adjust, BASE_TIME]

/-- C3 counterexample: on the empty active-node list Berkeley fails with the
uncaught Python exceptions `ZeroDivisionError` (mean mode) and
`StatisticsError` (median mode), neither of which is the typed
`InvalidInput` error the claim requires. -/
theorem C3_empty_error_counterexample :
    berkeley_sync [] false = Except.error PyError.zeroDivisionError ∧
    berkeley_sync [] true = Except.error PyError.statisticsError ∧
    PyError.zeroDivisionError ≠ PyError.invalidInput ∧
    PyError.statisticsError ≠ PyError.invalidInput :=
  ⟨rfl, rfl, by decide, by decide⟩

/-- C3 amended: when Berkeley sync is invoked on an empty active-node
sequence it fails, but with an untyped uncaught exception —
`ZeroDivisionError` in mean mode, `StatisticsError` in median mode — rather
than a typed `InvalidInput` error. -/
theorem C3_empty_error_untyped (use_robust : Bool) :
    berkeley_sync [] use_robust =
      Except.error (if use_robust then PyError.statisticsError else PyError.zeroDivisionError) := by
  cases use_robust <;> rfl

/-- C4: a reported-time read returns `base_time * drift + offset`, plus 30
exactly when the node is Byzantine; the call leaves the node state unchanged
(the bias is never stored), and an immediately repeated read without an
intervening adjust returns the identical value. -/
theorem C4_get_time_pure (n : Node) (b : ℚ) :
    (n.get_time_st b).1 = b * n.drift + n.offset + (if n.is_byzantine then 30 else 0) ∧
    (n.get_time_st b).2 = n ∧
    ((n.get_time_st b).2.get_time_st b).1 = (n.get_time_st b).1 := by
  refine ⟨?_, rfl, rfl⟩
  simp only [Node.get_time_st, Node.get_time]
  cases h : n.is_byzantine <;> simp [h]

/-- C5 counterexample: the manual-mode node with initial time 1000 that is
flagged Byzantine (Byzantine fault selected, node index 0) reports 1030 on
its first read, not 1000, refuting the claim's "including one flagged
Byzantine". -/
theorem C5_byzantine_manual_counterexample :
    (mkManualNode FaultType.fbyzantine 0 1000).get_time BASE_TIME = 1030 ∧
    (1030 : ℚ) ≠ 1000 := by
  constructor
  · norm_num [mkManualNode, Node.get_time, BASE_TIME]
  · norm_num

/-- C5 amended: a manual-mode node with initial time T has drift fixed at 1
and offset T minus the base time, and on its first read reports exactly T
when it is not flagged Byzantine; a Byzantine-flagged node reports T + 30
instead. -/
theorem C5_manual_seed (ft : FaultType) (i : Nat) (T : ℚ) :
    (mkManualNode ft i T).drift = 1 ∧
    (mkManualNode ft i T).offset = T - BASE_TIME ∧
    (mkManualNode ft i T).get_time BASE_TIME =
      (if (mkManualNode ft i T).is_byzantine then T + 30 else T) := by
  refine ⟨rfl, rfl, ?_⟩
  simp only [mkManualNode, Node.get_time, BASE_TIME]
  by_cases hp : ft = FaultType.fbyzantine ∧ i = 0
  · simp only [hp, decide_True, if_pos]
    ring_nf
  · simp [hp]

/-- C6: every successful simulation run reads all nodes (excluded ones
included — the final node list has the full length) for `before_times` and
`after_times` in node order, computes both skews as max minus min of the
respective sequence, and sets `synchronized` to true exactly when the
post-sync skew is below the 0.1 threshold. -/
theorem C6_run_measurements (nodes : List Node) (alg : Algorithm) (ft : FaultType)
    (ur : Bool) (res : SimulationResult)
    (h : runSimulation nodes alg ft ur = Except.ok res) :
    res.before_times = nodes.map (fun n => n.get_time BASE_TIME) ∧
    res.after_times = res.final_nodes.map (fun n => n.get_time BASE_TIME) ∧
    res.final_nodes.length = nodes.length ∧
    res.skew_before = listMax res.before_times - listMin res.before_times ∧
    res.skew_after = listMax res.after_times - listMin res.after_times ∧
    (res.synchronized = true ↔ res.skew_after < SYNC_THRESHOLD) := by
  obtain ⟨fn, hfn, hres⟩ := runSimulation_ok h
  subst hres
  refine ⟨rfl, rfl, applyAlgorithm_length hfn, rfl, rfl, ?_⟩
  simp [decide_eq_true_eq]

/-- Concrete single-node input for the C6 witness. -/
def nodesC6 : List Node := [⟨0, 1, false, 0⟩]

/-- Concrete result record for the C6 witness. -/
def resC6 : SimulationResult :=
  { before_times := [1000], after_times := [1000], skew_before := 0, skew_after := 0,
    synchronized := true, final_nodes := [⟨0, 1, false, 0⟩] }

/-- C6 witness: the measurement equations hold on a concrete one-node
Berkeley run. -/
theorem C6_run_measurements_witness :
    resC6.before_times = nodesC6.map (fun n => n.get_time BASE_TIME) ∧
    resC6.after_times = resC6.final_nodes.map (fun n => n.get_time BASE_TIME) ∧
    resC6.final_nodes.length = nodesC6.length ∧
    resC6.skew_before = listMax resC6.before_times - listMin resC6.before_times ∧
    resC6.skew_after = listMax resC6.after_times - listMin resC6.after_times ∧
    (resC6.synchronized = true ↔ resC6.skew_after < SYNC_THRESHOLD) :=
  C6_run_measurements nodesC6 Algorithm.berkeley FaultType.fnone false resC6 (by
    norm_num +decide [runSimulation, applyAlgorithm, berkeley_sync, Node.get_time, Node.adjust,
      nodesC6, resC6, listMax, listMin, List.foldl, BASE_TIME, SYNC_THRESHOLD, max_def, min_def])

/-- The manual initial times of the end-to-end scenario. -/
def demo_manual_times : List ℚ := [1000, 1002, 998, 1005, 999]

/-- The result of the end-to-end scenario; 5004/5 is 1000.8 and 4/5 is the
common final offset. -/
def demo_result : SimulationResult :=
  { before_times := [1000, 1002, 998, 1005, 999]
    after_times := List.replicate 5 (5004/5 : ℚ)
    skew_before := 7
    skew_after := 0
    synchronized := true
    final_nodes := [⟨0, 1, false, 4/5⟩, ⟨1, 1, false, 4/5⟩, ⟨2, 1, false, 4/5⟩,
                    ⟨3, 1, false, 4/5⟩, ⟨4, 1, false, 4/5⟩] }

/-- C7: the concrete run with five manual nodes [1000, 1002, 998, 1005, 999],
Berkeley mean mode and no fault has pre-sync skew 7, all five post-sync
times equal to 5004/5 = 1000.8, post-sync skew 0, and is synchronized. -/
theorem C7_demo_scenario :
    runSimulation (buildManualNodes FaultType.fnone demo_manual_times)
      Algorithm.berkeley FaultType.fnone false = Except.ok demo_result ∧
    demo_result.skew_before = 7 ∧
    demo_result.after_times = List.replicate 5 (5004/5 : ℚ) ∧
    demo_result.skew_after = 0 ∧
    demo_result.synchronized = true := by
  refine ⟨?_, rfl, rfl, rfl, rfl⟩
  norm_num +decide [runSimulation, applyAlgorithm, berkeley_sync, Node.get_time, Node.adjust,
    buildManualNodes, mkManualNode, demo_manual_times, List.range_succ, List.replicate,
    listMax, listMin, List.foldl, BASE_TIME, SYNC_THRESHOLD, demo_result, max_def, min_def]

/-- C8: adjust performs exactly offset-plus-delta and changes no other field;
a reported-time read mutates nothing; Berkeley preserves id, drift and
Byzantine flag of every node it is given; and in a crash-fault Berkeley run
the excluded node (outside the active sequence) is left entirely
unchanged. -/
theorem C8_adjust_only_mutation (n : Node) (d : ℚ) (nodes synced : List Node) (u : Bool)
    (hsync : berkeley_sync nodes u = Except.ok synced)
    (full : List Node) (ur : Bool) (res : SimulationResult)
    (hrun : runSimulation full Algorithm.berkeley FaultType.fcrash ur = Except.ok res) :
    n.adjust d = Node.mk n.node_id n.drift n.is_byzantine (n.offset + d) ∧
    (n.get_time_st BASE_TIME).2 = n ∧
    synced.map (fun m => (m.node_id, m.drift, m.is_byzantine)) =
      nodes.map (fun m => (m.node_id, m.drift, m.is_byzantine)) ∧
    res.final_nodes.take 1 = full.take 1 := by
  refine ⟨rfl, rfl, ?_, ?_⟩
  · have hn := berkeley_sync_ok_len_ne_zero hsync
    rw [berkeley_sync_of_ne_nil nodes u (by simpa [← List.length_eq_zero] using hn)] at hsync
    have h2 := Except.ok.inj hsync
    rw [← h2, List.map_map]
    rfl
  · obtain ⟨fn, hfn, hres⟩ := runSimulation_ok hrun
    subst hres
    exact applyAlgorithm_berkeley_crash_head hfn

/-- Concrete active list for the C8 witness. -/
def nodesC8 : List Node := [⟨1, 1, false, 3⟩]

/-- Its Berkeley output for the C8 witness. -/
def syncedC8 : List Node := [⟨1, 1, false, 3⟩]

/-- Concrete full node list (head excluded by the crash fault) for the C8
witness. -/
def fullC8 : List Node := [⟨0, 1, false, 0⟩, ⟨1, 1, false, 3⟩, ⟨2, 1, false, 5⟩]

/-- Concrete crash-fault run result for the C8 witness. -/
def resC8 : SimulationResult :=
  { before_times := [1000, 1003, 1005], after_times := [1000, 1004, 1004],
    skew_before := 5, skew_after := 4, synchronized := false,
    final_nodes := [⟨0, 1, false, 0⟩, ⟨1, 1, false, 4⟩, ⟨2, 1, false, 4⟩] }

/-- C8 witness: frame conditions instantiated on a concrete node, a concrete
Berkeley call and a concrete crash-fault run. -/
theorem C8_adjust_only_mutation_witness :
    (Node.mk 7 2 true 1).adjust 5 = Node.mk 7 2 true (1 + 5) ∧
    ((Node.mk 7 2 true 1).get_time_st BASE_TIME).2 = Node.mk 7 2 true 1 ∧
    syncedC8.map (fun m => (m.node_id, m.drift, m.is_byzantine)) =
      nodesC8.map (fun m => (m.node_id, m.drift, m.is_byzantine)) ∧
    resC8.final_nodes.take 1 = fullC8.take 1 :=
  C8_adjust_only_mutation (Node.mk 7 2 true 1) 5 nodesC8 syncedC8 false
    (by norm_num +decide [berkeley_sync, Node.get_time, Node.adjust, nodesC8, syncedC8, BASE_TIME])
    fullC8 false resC8
    (by norm_num +decide [runSimulation, applyAlgorithm, berkeley_sync, Node.get_time, Node.adjust,
      fullC8, resC8, listMax, listMin, List.foldl, BASE_TIME, SYNC_THRESHOLD, max_def, min_def])

/-- C9: in mean mode the adjustment deltas of Berkeley sum to zero, so the
sum (hence mean) of the reported times over the active nodes is the same
before and after the sync, exactly in rational arithmetic. -/
theorem C9_berkeley_mean_preservation (nodes synced : List Node)
    (h : nodes ≠ []) (hs : berkeley_sync nodes false = Except.ok synced) :
    (nodes.map (fun n => bcentral nodes false - n.get_time BASE_TIME)).sum = 0 ∧
    (synced.map (fun n => n.get_time BASE_TIME)).sum =
      (nodes.map (fun n => n.get_time BASE_TIME)).sum := by
  have hlen0 : nodes.length ≠ 0 := by simpa [List.length_eq_zero] using h
  have hlen : (nodes.length : ℚ) ≠ 0 := Nat.cast_ne_zero.mpr hlen0
  have hdelta : (nodes.map (fun n => bcentral nodes false - n.get_time BASE_TIME)).sum =
      (nodes.length : ℚ) * bcentral nodes false -
        (nodes.map (fun n => n.get_time BASE_TIME)).sum := by
    have h3 := sum_map_sub_const (nodes.map (fun n => n.get_time BASE_TIME)) (bcentral nodes false)
    simpa [List.map_map, Function.comp] using h3
  have hcval : bcentral nodes false =
      (nodes.map (fun n => n.get_time BASE_TIME)).sum / (nodes.length : ℚ) := by
    simp [bcentral]
  constructor
  · rw [hdelta, hcval, mul_div_cancel₀ _ hlen, sub_self]
  · rw [berkeley_sync_of_ne_nil nodes false h] at hs
    have h2 := Except.ok.inj hs
    rw [← h2, List.map_map]
    have hfun : ((fun n : Node => n.get_time BASE_TIME) ∘
        (fun n : Node => n.adjust (bcentral nodes false - n.get_time BASE_TIME))) =
        fun _ : Node => bcentral nodes false := by
      funext m
      simp [Function.comp, Node.adjust_get_time]
    rw [hfun, List.map_const', List.sum_replicate, nsmul_eq_mul, hcval,
      mul_div_cancel₀ _ hlen]

/-- Concrete two-node input for the C9 witness. -/
def nodesC9 : List Node := [⟨0, 1, false, 0⟩, ⟨1, 1, false, 2⟩]

/-- Its Berkeley mean-mode output for the C9 witness. -/
def syncedC9 : List Node := [⟨0, 1, false, 1⟩, ⟨1, 1, false, 1⟩]

/-- C9 witness: mean preservation on a concrete two-node Berkeley run. -/
theorem C9_berkeley_mean_preservation_witness :
    (nodesC9.map (fun n => bcentral nodesC9 false - n.get_time BASE_TIME)).sum = 0 ∧
    (syncedC9.map (fun n => n.get_time BASE_TIME)).sum =
      (nodesC9.map (fun n => n.get_time BASE_TIME)).sum :=
  C9_berkeley_mean_preservation nodesC9 syncedC9 (by decide)
    (by norm_num +decide [berkeley_sync, Node.get_time, Node.adjust, nodesC9, syncedC9, BASE_TIME])

/-- C10: a Cristian run never mutates the server — the head node of the
final list is the unchanged head of the input — and every client synced
against a Byzantine server afterwards reads exactly 30 more than the
server's own reading. -/
theorem C10_cristian_server_frame (nodes : List Node) (ft : FaultType) (ur : Bool)
    (res : SimulationResult)
    (hrun : runSimulation nodes Algorithm.cristian ft ur = Except.ok res)
    (clients : List Node) (server : Node) (hbyz : server.is_byzantine = true) :
    res.final_nodes.take 1 = nodes.take 1 ∧
    ∀ c ∈ cristian_sync clients server,
      c.get_time BASE_TIME - server.get_time BASE_TIME = 30 := by
  constructor
  · obtain ⟨fn, hfn, hres⟩ := runSimulation_ok hrun
    subst hres
    exact applyAlgorithm_cristian_head hfn
  · intro c hc
    obtain ⟨cl, hcl, rfl⟩ := List.mem_map.1 (by simpa [cristian_sync] using hc)
    rw [Node.adjust_get_time]
    simp [hbyz]

/-- Concrete node list (Byzantine server first) for the C10 witness. -/
def nodesC10 : List Node := [⟨0, 1, true, 0⟩, ⟨1, 1, false, 3⟩]

/-- The Byzantine server of the C10 witness. -/
def serverC10 : Node := ⟨0, 1, true, 0⟩

/-- Concrete Cristian run result for the C10 witness. -/
def resC10 : SimulationResult :=
  { before_times := [1030, 1003], after_times := [1030, 1060],
    skew_before := 27, skew_after := 30, synchronized := false,
    final_nodes := [⟨0, 1, true, 0⟩, ⟨1, 1, false, 60⟩] }

/-- C10 witness: on a concrete Byzantine-server Cristian run the server is
untouched and the synced client reads exactly 30 above the server. -/
theorem C10_cristian_server_frame_witness :
    resC10.final_nodes.take 1 = nodesC10.take 1 ∧
    (Node.mk 1 1 false 60).get_time BASE_TIME - serverC10.get_time BASE_TIME = 30 :=
  ⟨(C10_cristian_server_frame nodesC10 FaultType.fnone false resC10
      (by norm_num +decide [runSimulation, applyAlgorithm, cristian_sync, Node.get_time,
        Node.adjust, nodesC10, resC10, listMax, listMin, List.foldl, BASE_TIME, SYNC_THRESHOLD,
        max_def, min_def])
      [⟨1, 1, false, 3⟩] serverC10 rfl).1,
   (C10_cristian_server_frame nodesC10 FaultType.fnone false resC10
      (by norm_num +decide [runSimulation, applyAlgorithm, cristian_sync, Node.get_time,
        Node.adjust, nodesC10, resC10, listMax, listMin, List.foldl, BASE_TIME, SYNC_THRESHOLD,
        max_def, min_def])
      [⟨1, 1, false, 3⟩] serverC10 rfl).2 (Node.mk 1 1 false 60)
      (by norm_num [cristian_sync, serverC10, Node.get_time, Node.adjust, BASE_TIME])⟩

end ClockSync
